import Mathlib

set_option maxRecDepth 200000

/-!
Shallow embedding of the SUBARUU interpreter (a minimal line-numbered
BASIC dialect): the lexer (`src/tokenizer1.cc`, the variant matching
`include/tokenizer.h`) and the recursive-descent evaluator / statement
executor (`src/subaruu.cc`).

Modelling conventions:
* The `IO` collaborator (a character cursor over the file's contents) is
  modelled as an in-memory `List Char` plus a `Nat` position; `current()`
  returns `'\x00'` at end of input exactly as the C++ returns `0`.
* `boost::multiprecision::cpp_int` is modelled as `Int` (arbitrary
  precision in both).  `static_cast<int>` of a line-number value is
  modelled as the identity (line numbers in every reachable call fit).
* Character loops (`while` over the input) are given explicit fuel and
  every caller passes `content.length + 1`, which is always sufficient
  because each iteration advances the position; this keeps every
  definition structurally recursive, hence computable by `decide`/`rfl`.
* `std::cout` is modelled as an accumulated `String`, `std::cerr` as a
  `List String`; `dprintf(_, E_ERROR)` throws, which is modelled as an
  `Except` error carrying the state (and therefore the output) at the
  point of the throw, matching C++ exception propagation out of `run()`.
-/

namespace Subaruu

/-- Token kinds, from `Tokenizer::TokenType` in `include/tokenizer.h`. -/
inductive TokenType where
  | ERROR
  | EOF_TOKEN
  | NUMBER
  | LETTER
  | STRING
  | EQUAL
  | LT
  | GT
  | LT_EQ
  | GT_EQ
  | NOT_EQUAL
  | SEPARATOR
  | MINUS
  | PLUS
  | ASTERISK
  | SLASH
  | LET
  | IF
  | THEN
  | PRINT
  | PRINT_DOLLAR
  | TAB
  | REM
  | GOTO
  | LEFT_PAREN
  | RIGHT_PAREN
  | LEFT_BRACKET
  | RIGHT_BRACKET
  | EOL
  deriving DecidableEq, Repr

/-- Token payload, from `Tokenizer::TokenData =
`std::variant` over monostate / string / cpp_int / char`. -/
inductive TokenData where
  | none
  | str (s : String)
  | num (n : Int)
  | ch (c : Char)
  deriving DecidableEq, Repr

/-- `SUBARUU_STRING_LITERAL` from `include/config.h`. -/
def SUBARUU_STRING_LITERAL : Nat := 50

/-- `SUBARUU_NUMBER_LITERAL` from `include/config.h`. -/
def SUBARUU_NUMBER_LITERAL : Nat := 19

/-- `SUBARUU_TERMINATE_ON_DIV_ZERO` from `include/config.h`
(default configuration). -/
def SUBARUU_TERMINATE_ON_DIV_ZERO : Bool := false

/-- `IO::eof()`: the cursor is at the end of the content. -/
def atEnd (content : List Char) (pos : Nat) : Bool :=
  decide (content.length ≤ pos)

/-- `IO::current()`: current character, `0` at end of input. -/
def curC (content : List Char) (pos : Nat) : Char :=
  (content.get? pos).getD (Char.ofNat 0)

/-- Horizontal whitespace test used throughout the lexer
(`c == ' ' || c == '\t'`). -/
def isSpaceTab (c : Char) : Bool := c == ' ' || c == '\t'

/-- The whitespace-skipping loop
`while (!io_->eof() && (io_->current()==' '||io_->current()=='\t')) io_->next();`.
(All character loops recurse on explicit fuel via `Nat.rec`, so that the
kernel can evaluate them; callers pass `content.length + 1`, always
sufficient because every iteration advances the position.) -/
def skipWsF (content : List Char) : Nat → Nat → Nat :=
  Nat.rec (motive := fun _ => Nat → Nat)
    (fun pos => pos)
    (fun _ ih pos =>
      if !atEnd content pos && isSpaceTab (curC content pos) then ih (pos + 1)
      else pos)

/-- `skipWsF` with always-sufficient fuel. -/
def skipWs (content : List Char) (pos : Nat) : Nat :=
  skipWsF content (content.length + 1) pos

/-- Tokenizer state: cursor (content and position), current token and
its payload — the fields of `class Tokenizer` with its `IO` inlined. -/
structure TokState where
  content : List Char
  pos : Nat
  currentToken : TokenType
  tokenData : TokenData
  deriving DecidableEq, Repr

/-- Digit-accumulation loop of `Tokenizer::token_number`: stops at the
first non-digit (`.ok digits, pos`), or fails (`.error pos`) when a
digit would push the literal beyond `SUBARUU_NUMBER_LITERAL` digits. -/
def numScanF (content : List Char) :
    Nat → Nat → List Char → Except Nat (List Char × Nat) :=
  Nat.rec (motive := fun _ => Nat → List Char → Except Nat (List Char × Nat))
    (fun pos acc => .ok (acc, pos))
    (fun _ ih pos acc =>
      if !atEnd content pos && (curC content pos).isDigit then
        if SUBARUU_NUMBER_LITERAL ≤ acc.length then .error pos
        else ih (pos + 1) (acc ++ [curC content pos])
      else .ok (acc, pos))

/-- Decimal value of a digit string, as accumulated by the
`value = value*10 + d` loop of `token_number`. -/
def digitsVal (ds : List Char) : Int :=
  ds.foldl (fun a c => a * 10 + Int.ofNat (c.toNat - '0'.toNat)) 0

/-- `Tokenizer::token_number`: skip leading whitespace, scan digits
(lexical error if more than `SUBARUU_NUMBER_LITERAL`), parse the value,
skip trailing whitespace. -/
def token_number (content : List Char) (pos : Nat) (data : TokenData) : TokState :=
  let p0 := skipWs content pos
  match numScanF content (content.length + 1) p0 [] with
  | .error pf => ⟨content, pf, TokenType.ERROR, data⟩
  | .ok (ds, p1) =>
    if ds.isEmpty then ⟨content, p1, TokenType.ERROR, data⟩
    else
      let p2 := skipWs content p1
      ⟨content, p2, TokenType.NUMBER, TokenData.num (digitsVal ds)⟩

/-- Letter-accumulation loop of `Tokenizer::token_keyword`: consumes
every following alphabetic character, upper-cased. -/
def kwScanF (content : List Char) : Nat → Nat → List Char → List Char × Nat :=
  Nat.rec (motive := fun _ => Nat → List Char → List Char × Nat)
    (fun pos acc => (acc, pos))
    (fun _ ih pos acc =>
      if !atEnd content pos && (curC content pos).isAlpha then
        ih (pos + 1) (acc ++ [(curC content pos).toUpper])
      else (acc, pos))

/-- Keyword-spelling-to-token table at the end of
`Tokenizer::token_keyword`. -/
def keywordToken (kw : String) : TokenType :=
  if kw == "REM" then TokenType.REM
  else if kw == "PRINT" then TokenType.PRINT
  else if kw == "LET" then TokenType.LET
  else if kw == "IF" then TokenType.IF
  else if kw == "THEN" then TokenType.THEN
  else if kw == "GOTO" then TokenType.GOTO
  else if kw == "TAB" then TokenType.TAB
  else TokenType.ERROR

/-- `Tokenizer::token_keyword`: accumulate upper-cased letters, handle
the `PRINT$` special case, skip trailing whitespace, look the spelling
up; the token payload is left unchanged. -/
def token_keyword (content : List Char) (pos : Nat) (data : TokenData) : TokState :=
  let p0 := skipWs content pos
  let scanned := kwScanF content (content.length + 1) p0 []
  let kw := String.mk scanned.1
  let p1 := scanned.2
  if !atEnd content p1 && kw == "PRINT" && curC content p1 == '$' then
    let p2 := skipWs content (p1 + 1)
    ⟨content, p2, TokenType.PRINT_DOLLAR, data⟩
  else
    let p2 := skipWs content p1
    ⟨content, p2, keywordToken kw, data⟩

/-- Body loop of `Tokenizer::token_string`: accumulate characters until
the closing quote (result flag `true`, quote consumed), end of input, or
the `SUBARUU_STRING_LITERAL` cap (flag `false`, nothing consumed). -/
def strScanF (content : List Char) :
    Nat → Nat → List Char → List Char × Nat × Bool :=
  Nat.rec (motive := fun _ => Nat → List Char → List Char × Nat × Bool)
    (fun pos acc => (acc, pos, false))
    (fun _ ih pos acc =>
      if atEnd content pos then (acc, pos, false)
      else if curC content pos == '"' then (acc, pos + 1, true)
      else if SUBARUU_STRING_LITERAL ≤ acc.length then (acc, pos, false)
      else ih (pos + 1) (acc ++ [curC content pos]))

/-- `Tokenizer::token_string`: `pos` is at the opening quote; trailing
whitespace is skipped only when the string was properly closed. -/
def token_string (content : List Char) (pos : Nat) : TokState :=
  let scanned := strScanF content (content.length + 1) (pos + 1) []
  let p1 := scanned.2.1
  let p2 := if scanned.2.2 then skipWs content p1 else p1
  ⟨content, p2, TokenType.STRING, TokenData.str (String.mk scanned.1)⟩

/-- Position after consuming one line terminator starting at `pos`
(`\r`, then optionally `\n`, as in `get_next_token`). -/
def consumeEolAt (content : List Char) (pos : Nat) : Nat :=
  if curC content pos == '\r' then
    if !atEnd content (pos + 1) && curC content (pos + 1) == '\n' then pos + 2
    else pos + 1
  else pos + 1

/-- `io_->next()`: advance unless at end. -/
def nextPosition (content : List Char) (pos : Nat) : Nat :=
  if atEnd content pos then pos else pos + 1

/-- `Tokenizer::get_next_token`, as a pure function of the cursor and
the token payload (the C++ never reads `current_token_` here). -/
def gntCore (content : List Char) (pos : Nat) (data : TokenData) : TokState :=
  if atEnd content pos then ⟨content, pos, TokenType.EOF_TOKEN, data⟩
  else
    let p := skipWs content pos
    let c := curC content p
    if c == '\n' || c == '\r' then
      ⟨content, consumeEolAt content p, TokenType.EOL, data⟩
    else if c == '"' then token_string content p
    else if c.isDigit then token_number content p data
    else if c.isAlpha then
      if c.isUpper then token_keyword content p data
      else ⟨content, p + 1, TokenType.LETTER, TokenData.ch c⟩
    else if c == ',' || c == ';' then ⟨content, p + 1, TokenType.SEPARATOR, data⟩
    else if c == '=' then ⟨content, p + 1, TokenType.EQUAL, data⟩
    else if c == '<' then
      if !atEnd content (p + 1) && curC content (p + 1) == '=' then
        ⟨content, p + 2, TokenType.LT_EQ, data⟩
      else if !atEnd content (p + 1) && curC content (p + 1) == '>' then
        ⟨content, p + 2, TokenType.NOT_EQUAL, data⟩
      else ⟨content, p + 1, TokenType.LT, data⟩
    else if c == '>' then
      if !atEnd content (p + 1) && curC content (p + 1) == '=' then
        ⟨content, p + 2, TokenType.GT_EQ, data⟩
      else ⟨content, p + 1, TokenType.GT, data⟩
    else if c == '+' then ⟨content, p + 1, TokenType.PLUS, data⟩
    else if c == '-' then ⟨content, p + 1, TokenType.MINUS, data⟩
    else if c == '*' then ⟨content, p + 1, TokenType.ASTERISK, data⟩
    else if c == '/' then ⟨content, p + 1, TokenType.SLASH, data⟩
    else if c == '(' then ⟨content, p + 1, TokenType.LEFT_PAREN, data⟩
    else if c == ')' then ⟨content, p + 1, TokenType.RIGHT_PAREN, data⟩
    else if c == '[' then ⟨content, p + 1, TokenType.LEFT_BRACKET, data⟩
    else if c == ']' then ⟨content, p + 1, TokenType.RIGHT_BRACKET, data⟩
    else ⟨content, nextPosition content p, TokenType.ERROR, data⟩

/-- `Tokenizer::get_next_token` applied to a tokenizer state. -/
def get_next_token (t : TokState) : TokState :=
  gntCore t.content t.pos t.tokenData

/-- `Tokenizer::finished()`: current token is end-of-input. -/
def tokFinished (t : TokState) : Bool :=
  t.currentToken == TokenType.EOF_TOKEN

/-- `Tokenizer::next_token`: no-op at end of input, otherwise skip
horizontal whitespace and lex the next token. -/
def next_token (t : TokState) : TokState :=
  if tokFinished t then t
  else gntCore t.content (skipWs t.content t.pos) t.tokenData

/-- Scan of `Tokenizer::skip_to_eol`: advance to the next `\n`/`\r` or
end of input. -/
def eolScanF (content : List Char) : Nat → Nat → Nat :=
  Nat.rec (motive := fun _ => Nat → Nat)
    (fun pos => pos)
    (fun _ ih pos =>
      if !atEnd content pos && !(curC content pos == '\n') &&
          !(curC content pos == '\r') then
        ih (pos + 1)
      else pos)

/-- `Tokenizer::skip_to_eol`: discard through the next line terminator
(CRLF atomically), then lex the following token. -/
def skip_to_eol (t : TokState) : TokState :=
  let p := eolScanF t.content (t.content.length + 1) t.pos
  let p1 := if !atEnd t.content p then consumeEolAt t.content p else p
  gntCore t.content p1 t.tokenData

/-- `Tokenizer::reset()`: rewind the cursor, clear the payload, lex the
first token. -/
def tokenizerReset (t : TokState) : TokState :=
  gntCore t.content 0 TokenData.none

/-- The `Tokenizer` constructor: cursor at the start, empty payload,
first token lexed. -/
def tokenizerInit (src : String) : TokState :=
  gntCore src.toList 0 TokenData.none

/-- `Tokenizer::get_num`: the numeric payload, `0` for any other
variant. -/
def getNum (t : TokState) : Int :=
  match t.tokenData with
  | TokenData.num n => n
  | _ => 0

/-- `Tokenizer::get_string`: the string payload, `""` for any other
variant. -/
def getString (t : TokState) : String :=
  match t.tokenData with
  | TokenData.str s => s
  | _ => ""

/-- `Tokenizer::token_to_string` (diagnostic names used in error
messages). -/
def tokenToString (token : TokenType) : String :=
  match token with
  | TokenType.ERROR => "ERROR"
  | TokenType.EOF_TOKEN => "EOF_TOKEN"
  | TokenType.NUMBER => "NUMBER"
  | TokenType.LETTER => "LETTER"
  | TokenType.STRING => "STRING"
  | TokenType.EQUAL => "EQUAL"
  | TokenType.LT => "LT"
  | TokenType.GT => "GT"
  | TokenType.LT_EQ => "LT_EQ"
  | TokenType.GT_EQ => "GT_EQ"
  | TokenType.NOT_EQUAL => "NOT_EQUAL"
  | TokenType.SEPARATOR => "SEPARATOR"
  | TokenType.MINUS => "MINUS"
  | TokenType.PLUS => "PLUS"
  | TokenType.ASTERISK => "ASTERISK"
  | TokenType.SLASH => "SLASH"
  | TokenType.LET => "LET"
  | TokenType.IF => "IF"
  | TokenType.THEN => "THEN"
  | TokenType.PRINT => "PRINT"
  | TokenType.PRINT_DOLLAR => "PRINT$"
  | TokenType.TAB => "TAB"
  | TokenType.REM => "REM"
  | TokenType.GOTO => "GOTO"
  | TokenType.LEFT_PAREN => "LEFT_PAREN"
  | TokenType.RIGHT_PAREN => "RIGHT_PAREN"
  | TokenType.LEFT_BRACKET => "LEFT_BRACKET"
  | TokenType.RIGHT_BRACKET => "RIGHT_BRACKET"
  | TokenType.EOL => "EOL"

/-- The token stream from a tokenizer state: the current token (with
payload), then, until end of input, the stream after `next_token` —
used to state the reset-idempotence property. -/
def tokenStream : Nat → TokState → List (TokenType × TokenData) :=
  Nat.rec (motive := fun _ => TokState → List (TokenType × TokenData))
    (fun _ => [])
    (fun _ ih t =>
      (t.currentToken, t.tokenData) ::
        (if tokFinished t then [] else ih (next_token t)))

/-- Interpreter state: the fields of `class SUBARUU` (tokenizer, scalar
variables, indexed memory, line map, halt flag) plus the observable
output streams. -/
structure SState where
  tok : TokState
  vars : Nat → Int
  mem : Int → Option Int
  lineMap : Int → Option Bool
  executionFinished : Bool
  output : String
  stderrLog : List String

/-- A run aborts either with a thrown `std::runtime_error` (carrying
the state — and hence the output — at the point of the throw) or, as a
modelling artifact, by fuel exhaustion. -/
inductive RunErr where
  | thrown (msg : String) (s : SState)
  | fuelOut

/-- `SUBARUU::dprintf(_, E_WARNING)`: log to stderr and continue. -/
def dprintfWarn (msg : String) (s : SState) : SState :=
  { s with stderrLog := s.stderrLog ++ ["WARNING: " ++ msg] }

/-- `SUBARUU::dprintf(_, E_ERROR)`: log to stderr and throw. -/
def dprintfError (msg : String) (s : SState) : Except RunErr α :=
  .error (RunErr.thrown msg
    { s with stderrLog := s.stderrLog ++ ["ERROR: " ++ msg] })

/-- `SUBARUU::accept`: require the current token kind, then advance. -/
def accept (expected : TokenType) (s : SState) : Except RunErr SState :=
  if s.tok.currentToken ≠ expected then
    dprintfError ("*subaruu.cpp: unexpected `" ++
      tokenToString s.tok.currentToken ++ "` expected `" ++
      tokenToString expected ++ "`") s
  else .ok { s with tok := next_token s.tok }

/-- `SUBARUU::safe_divide`: warn and yield `0` on a zero denominator
(fatal only under the terminate-on-divide-by-zero policy); `cpp_int`
division truncates toward zero, i.e. `Int.tdiv`. -/
def safe_divide (numerator denominator : Int) (s : SState) :
    Except RunErr (Int × SState) :=
  if denominator = 0 then
    let s1 := dprintfWarn "*warning: divide by zero" s
    if SUBARUU_TERMINATE_ON_DIV_ZERO then dprintfError "Division by zero" s1
    else .ok (0, s1)
  else .ok (Int.tdiv numerator denominator, s)

/-- `SUBARUU::is_valid_line_number`: at least `10` and a multiple of
`10` — the value-only predicate, with no look-ahead. -/
def is_valid_line_number (num : Int) : Bool :=
  decide (10 ≤ num) && decide (Int.emod num 10 = 0)

/-- `SUBARUU::is_line_number`: the current token is a number whose
value satisfies `is_valid_line_number`. -/
def is_line_number (t : TokState) : Bool :=
  if t.currentToken ≠ TokenType.NUMBER then false
  else is_valid_line_number (getNum t)

/-- `SUBARUU::is_statement_end`: end-of-line or end-of-input. -/
def is_statement_end (token : TokenType) : Bool :=
  token == TokenType.EOL || token == TokenType.EOF_TOKEN

/-- The early-stop guard in `SUBARUU::expression` (`token == NUMBER &&
is_valid_line_number(get_num())`). -/
def exprStopGuard (t : TokState) : Bool :=
  t.currentToken == TokenType.NUMBER && is_valid_line_number (getNum t)

/-- Pointwise update of a function-modelled store
(`store[key] = value`). -/
def updStore (f : Int → α) (k : Int) (v : α) : Int → α :=
  fun x => if x = k then v else f x

/-- The six mutually recursive expression-evaluation members of
`SUBARUU` at one fuel level (`termLoop` / `exprLoop` are the `while`
loops inside `term` / `expression`). -/
structure EvalFns where
  factor : SState → Except RunErr (Int × SState)
  termLoop : Int → SState → Except RunErr (Int × SState)
  term : SState → Except RunErr (Int × SState)
  exprLoop : Int → SState → Except RunErr (Int × SState)
  expression : SState → Except RunErr (Int × SState)
  relation : SState → Except RunErr (Int × SState)

/-- Fuel level zero: every evaluator is out of fuel. -/
def evalBase : EvalFns where
  factor _ := .error RunErr.fuelOut
  termLoop _ _ := .error RunErr.fuelOut
  term _ := .error RunErr.fuelOut
  exprLoop _ _ := .error RunErr.fuelOut
  expression _ := .error RunErr.fuelOut
  relation _ := .error RunErr.fuelOut

/-- One fuel level of the mutually recursive evaluators, each calling
the previous level `p`. -/
def evalStep (p : EvalFns) : EvalFns where
  factor s :=
    match s.tok.currentToken with
    | TokenType.NUMBER => .ok (getNum s.tok, { s with tok := next_token s.tok })
    | TokenType.LETTER =>
      match s.tok.tokenData with
      | TokenData.ch c0 =>
        let c := c0.toLower
        let s1 := { s with tok := next_token s.tok }
        if s1.tok.currentToken == TokenType.LEFT_BRACKET then
          let s2 := { s1 with tok := next_token s1.tok }
          match p.expression s2 with
          | .error e => .error e
          | .ok (idx, s3) =>
            match accept TokenType.RIGHT_BRACKET s3 with
            | .error e => .error e
            | .ok s4 => .ok ((s4.mem idx).getD 0, s4)
        else .ok (s1.vars (c.toNat - 'a'.toNat), s1)
      | _ => .error (RunErr.thrown "std::bad_variant_access" s)
    | TokenType.LEFT_PAREN =>
      let s1 := { s with tok := next_token s.tok }
      match p.expression s1 with
      | .error e => .error e
      | .ok (v, s2) =>
        match accept TokenType.RIGHT_PAREN s2 with
        | .error e => .error e
        | .ok s3 => .ok (v, s3)
    | TokenType.MINUS =>
      let s1 := { s with tok := next_token s.tok }
      match p.factor s1 with
      | .error e => .error e
      | .ok (v, s2) => .ok (-v, s2)
    | tk =>
      dprintfError ("Syntax Error: Unexpected token in factor: " ++
        tokenToString tk) s
  termLoop result s :=
    let token := s.tok.currentToken
    if token == TokenType.ASTERISK || token == TokenType.SLASH then
      let s1 := { s with tok := next_token s.tok }
      match p.factor s1 with
      | .error e => .error e
      | .ok (rhs, s2) =>
        if token == TokenType.ASTERISK then p.termLoop (result * rhs) s2
        else
          match safe_divide result rhs s2 with
          | .error e => .error e
          | .ok (v, s3) => p.termLoop v s3
    else .ok (result, s)
  term s :=
    match p.factor s with
    | .error e => .error e
    | .ok (v, s1) => p.termLoop v s1
  exprLoop result s :=
    let token := s.tok.currentToken
    if token == TokenType.PLUS || token == TokenType.MINUS then
      let s1 := { s with tok := next_token s.tok }
      match p.term s1 with
      | .error e => .error e
      | .ok (rhs, s2) =>
        if token == TokenType.PLUS then p.exprLoop (result + rhs) s2
        else p.exprLoop (result - rhs) s2
    else .ok (result, s)
  expression s :=
    match p.term s with
    | .error e => .error e
    | .ok (result, s1) =>
      if exprStopGuard s1.tok then .ok (result, s1)
      else p.exprLoop result s1
  relation s :=
    match p.expression s with
    | .error e => .error e
    | .ok (left, s1) =>
      let cmp : (Int → Int → Bool) → Except RunErr (Int × SState) :=
        fun op =>
          match p.expression { s1 with tok := next_token s1.tok } with
          | .error e => .error e
          | .ok (right, s2) => .ok (if op left right then 1 else 0, s2)
      match s1.tok.currentToken with
      | TokenType.EQUAL => cmp (fun a b => a == b)
      | TokenType.LT => cmp (fun a b => decide (a < b))
      | TokenType.GT => cmp (fun a b => decide (b < a))
      | TokenType.LT_EQ => cmp (fun a b => decide (a ≤ b))
      | TokenType.GT_EQ => cmp (fun a b => decide (b ≤ a))
      | TokenType.NOT_EQUAL => cmp (fun a b => a != b)
      | _ => .ok (if left ≠ 0 then 1 else 0, s1)

/-- The evaluator tower: fuel level `n + 1` calls level `n`. -/
def evalAt : Nat → EvalFns :=
  Nat.rec (motive := fun _ => EvalFns) evalBase (fun _ ih => evalStep ih)

/-- `SUBARUU::factor`: number, variable (possibly indexed — an
unwritten cell reads as `0` via `memory_.find`), parenthesized
expression, or unary minus. -/
def factor (fuel : Nat) : SState → Except RunErr (Int × SState) :=
  (evalAt fuel).factor

/-- The `*` / `/` loop of `SUBARUU::term`. -/
def termLoop (fuel : Nat) : Int → SState → Except RunErr (Int × SState) :=
  (evalAt fuel).termLoop

/-- `SUBARUU::term`: factors joined by `*` / `/`. -/
def term (fuel : Nat) : SState → Except RunErr (Int × SState) :=
  (evalAt fuel).term

/-- The `+` / `-` loop of `SUBARUU::expression`. -/
def exprLoop (fuel : Nat) : Int → SState → Except RunErr (Int × SState) :=
  (evalAt fuel).exprLoop

/-- `SUBARUU::expression`: terms joined by `+` / `-`, stopping early
(leaving the token unconsumed) when the current token is a number
satisfying the line-number predicate. -/
def expression (fuel : Nat) : SState → Except RunErr (Int × SState) :=
  (evalAt fuel).expression

/-- `SUBARUU::relation`: an expression, optionally compared with a
second one; a bare expression yields its truthiness (`≠ 0`). -/
def relation (fuel : Nat) : SState → Except RunErr (Int × SState) :=
  (evalAt fuel).relation

/-- `SUBARUU::let_statement`: parse the target (`letter` or
`letter[expr]`), require `=`, evaluate, store into the indexed memory
or the variable array. -/
def let_statement (fuel : Nat) (s : SState) : Except RunErr SState :=
  if s.tok.currentToken ≠ TokenType.LETTER then
    dprintfError "Syntax Error: Expected variable name" s
  else
    match s.tok.tokenData with
    | TokenData.ch c0 =>
      let c := c0.toLower
      let s1 := { s with tok := next_token s.tok }
      let afterTarget : Except RunErr (Bool × Int × SState) :=
        if s1.tok.currentToken == TokenType.LEFT_BRACKET then
          match expression fuel { s1 with tok := next_token s1.tok } with
          | .error e => .error e
          | .ok (idx, s2) =>
            match accept TokenType.RIGHT_BRACKET s2 with
            | .error e => .error e
            | .ok s3 => .ok (true, idx, s3)
        else .ok (false, 0, s1)
      match afterTarget with
      | .error e => .error e
      | .ok (indexed, idx, s2) =>
        match accept TokenType.EQUAL s2 with
        | .error e => .error e
        | .ok s3 =>
          match expression fuel s3 with
          | .error e => .error e
          | .ok (value, s4) =>
            if indexed then
              .ok { s4 with mem := updStore s4.mem idx (some value) }
            else
              .ok { s4 with vars :=
                fun x => if x = c.toNat - 'a'.toNat then value else s4.vars x }
    | _ => .error (RunErr.thrown "std::bad_variant_access" s)

/-- `SUBARUU::find_target_line`: starting from a reset tokenizer, scan
token by token (tracking an at-line-start flag) and stop at the first
at-line-start number equal to the target, consuming it; `false` when
end of input is reached first.  `none` is fuel exhaustion. -/
def find_target_line : Nat → Int → Bool → TokState → Option (Bool × TokState) :=
  Nat.rec (motive := fun _ => Int → Bool → TokState → Option (Bool × TokState))
    (fun _ _ _ => none)
    (fun _ ih lineNumber atLineStart t =>
      if tokFinished t then some (false, t)
      else if atLineStart && t.currentToken == TokenType.NUMBER &&
          getNum t == lineNumber then
        some (true, next_token t)
      else ih lineNumber (t.currentToken == TokenType.EOL) (next_token t))

/-- The jump shared by `goto_statement` and a true `if_statement`:
check the line map, reset the tokenizer, rescan for the target. -/
def jumpToLine (fuel : Nat) (lineNumber : Int) (s : SState) :
    Except RunErr SState :=
  if s.lineMap lineNumber = none then
    dprintfError ("Runtime Error: Line number " ++ toString lineNumber ++
      " not found") s
  else
    let s1 := { s with tok := tokenizerReset s.tok }
    match find_target_line fuel lineNumber true s1.tok with
    | none => .error RunErr.fuelOut
    | some (found, t1) =>
      if found then .ok { s1 with tok := t1 }
      else
        dprintfError ("Internal Error: Failed to find valid line number " ++
          toString lineNumber) { s1 with tok := t1 }

/-- `SUBARUU::goto_statement`: consume `GOTO` and the target number
(and a following end-of-line token), then jump unconditionally. -/
def goto_statement (fuel : Nat) (s : SState) : Except RunErr SState :=
  match accept TokenType.GOTO s with
  | .error e => .error e
  | .ok s1 =>
    let lineNumber := getNum s1.tok
    match accept TokenType.NUMBER s1 with
    | .error e => .error e
    | .ok s2 =>
      let s3 :=
        if s2.tok.currentToken == TokenType.EOL then
          { s2 with tok := next_token s2.tok }
        else s2
      jumpToLine fuel lineNumber s3

/-- `SUBARUU::if_statement`: evaluate the relation, require `THEN` and
a numeric target; jump when true, otherwise skip the end-of-line token
if present (the target number is discarded). -/
def if_statement (fuel : Nat) (s : SState) : Except RunErr SState :=
  match accept TokenType.IF s with
  | .error e => .error e
  | .ok s1 =>
    match relation fuel s1 with
    | .error e => .error e
    | .ok (cond, s2) =>
      match accept TokenType.THEN s2 with
      | .error e => .error e
      | .ok s3 =>
        if s3.tok.currentToken ≠ TokenType.NUMBER then
          dprintfError "Syntax Error: Expected line number after THEN" s3
        else
          let lineNumber := getNum s3.tok
          let s4 := { s3 with tok := next_token s3.tok }
          if cond ≠ 0 then jumpToLine fuel lineNumber s4
          else if s4.tok.currentToken == TokenType.EOL then
            .ok { s4 with tok := next_token s4.tok }
          else .ok s4

/-- The item loop of `SUBARUU::print_statement`.  A string or
expression item is prefixed with a space when the needs-a-leading-space
flag is set and sets the flag; a separator clears the flag and prints
one space itself. -/
def printLoop : Nat → Bool → SState → Except RunErr SState :=
  Nat.rec (motive := fun _ => Bool → SState → Except RunErr SState)
    (fun _ _ => .error RunErr.fuelOut)
    (fun fuel ih needSpace s =>
      if tokFinished s.tok then .ok s
      else
        let token := s.tok.currentToken
        if is_statement_end token || is_line_number s.tok then .ok s
        else
          match token with
          | TokenType.STRING =>
            let s1 := { s with
              output := s.output ++ (if needSpace then " " else "") ++
                getString s.tok,
              tok := next_token s.tok }
            ih true s1
          | TokenType.SEPARATOR =>
            let s1 := { s with
              output := s.output ++ " ",
              tok := next_token s.tok }
            ih false s1
          | TokenType.LETTER | TokenType.NUMBER | TokenType.LEFT_PAREN
          | TokenType.MINUS =>
            let s1 := { s with
              output := s.output ++ (if needSpace then " " else "") }
            match expression fuel s1 with
            | .error e => .error e
            | .ok (v, s2) =>
              ih true { s2 with output := s2.output ++ toString v }
          | _ => .ok s)

/-- `SUBARUU::print_statement`: consume `PRINT`, run the item loop,
terminate the line with one newline; halt when the terminating token is
end-of-input, consume it when it is an end-of-line (unless the loop
stopped at a line-number token, which is left for the driver). -/
def print_statement (fuel : Nat) (s : SState) : Except RunErr SState :=
  match accept TokenType.PRINT s with
  | .error e => .error e
  | .ok s1 =>
    match printLoop fuel false s1 with
    | .error e => .error e
    | .ok s2 =>
      let s3 := { s2 with output := s2.output ++ "\n" }
      let finalToken := s3.tok.currentToken
      if is_line_number s3.tok then .ok s3
      else if finalToken == TokenType.EOF_TOKEN then
        .ok { s3 with executionFinished := true }
      else if finalToken == TokenType.EOL then
        .ok { s3 with tok := next_token s3.tok }
      else .ok s3

/-- `SUBARUU::statement`: dispatch on the current token (`REM`,
`PRINT`, `IF`, `GOTO`, `LET`, implicit assignment from a letter);
anything else is a fatal syntax error. -/
def statement (fuel : Nat) (s : SState) : Except RunErr SState :=
  match s.tok.currentToken with
  | TokenType.REM => .ok { s with tok := skip_to_eol s.tok }
  | TokenType.PRINT => print_statement fuel s
  | TokenType.IF => if_statement fuel s
  | TokenType.GOTO => goto_statement fuel s
  | TokenType.LET =>
    match accept TokenType.LET s with
    | .error e => .error e
    | .ok s1 => let_statement fuel s1
  | TokenType.LETTER => let_statement fuel s
  | _ => dprintfError "Syntax Error: Unrecognized statement" s

/-- The stray-end-of-line skipping loop at the start of
`SUBARUU::line_statement`. -/
def skipEols : Nat → TokState → TokState :=
  Nat.rec (motive := fun _ => TokState → TokState)
    (fun t => t)
    (fun _ ih t =>
      if t.currentToken == TokenType.EOL then ih (next_token t) else t)

/-- `SUBARUU::line_statement`: skip stray end-of-line tokens, halt at
end of input, consume a leading line label, execute the statement. -/
def line_statement (fuel : Nat) (s : SState) : Except RunErr SState :=
  let s1 := { s with tok := skipEols (s.tok.content.length + 1) s.tok }
  if s1.tok.currentToken == TokenType.EOF_TOKEN then
    .ok { s1 with executionFinished := true }
  else
    let s2 :=
      if s1.tok.currentToken == TokenType.NUMBER then
        { s1 with tok := next_token s1.tok }
      else s1
    statement fuel s2

/-- Scan loop of `SUBARUU::build_line_map`: at every at-line-start
number satisfying `is_valid_line_number`, record presence (the map
value is always `true`); `none` is fuel exhaustion. -/
def lineScan : Nat → (Int → Option Bool) → Bool → TokState →
    Option ((Int → Option Bool) × TokState) :=
  Nat.rec (motive := fun _ => (Int → Option Bool) → Bool → TokState →
      Option ((Int → Option Bool) × TokState))
    (fun _ _ _ => none)
    (fun _ ih m atLineStart t =>
      if tokFinished t then some (m, t)
      else
        let m' :=
          if atLineStart && t.currentToken == TokenType.NUMBER &&
              is_valid_line_number (getNum t) then
            updStore m (getNum t) (some true)
          else m
        ih m' (t.currentToken == TokenType.EOL) (next_token t))

/-- `SUBARUU::build_line_map`: clear the map, reset the tokenizer, scan
the whole token stream, reset again. -/
def build_line_map (fuel : Nat) (s : SState) : Option SState :=
  let t0 := tokenizerReset s.tok
  match lineScan fuel (fun _ => none) true t0 with
  | none => none
  | some (m, t1) => some { s with lineMap := m, tok := tokenizerReset t1 }

/-- The `while (!finished())` loop of `SUBARUU::run`. -/
def runLoop : Nat → SState → Except RunErr SState :=
  Nat.rec (motive := fun _ => SState → Except RunErr SState)
    (fun _ => .error RunErr.fuelOut)
    (fun fuel ih s =>
      if s.executionFinished then .ok s
      else if tokFinished s.tok then .ok { s with executionFinished := true }
      else
        match line_statement fuel s with
        | .error e => .error e
        | .ok s1 => ih s1)

/-- The `SUBARUU` constructor: fresh tokenizer over the source, all
variables zero, empty memory and line map, not halted, nothing printed. -/
def initState (src : String) : SState :=
  { tok := tokenizerInit src
    vars := fun _ => 0
    mem := fun _ => none
    lineMap := fun _ => none
    executionFinished := false
    output := ""
    stderrLog := [] }

/-- `SUBARUU::run` on a source text: build the line map, then execute
line statements until halted. -/
def runProgram (fuel : Nat) (src : String) : Except RunErr SState :=
  match build_line_map fuel (initState src) with
  | none => .error RunErr.fuelOut
  | some s => runLoop fuel s

/-- The stdout produced by a completed run (`none` when the run aborts
or runs out of fuel). -/
def runOutput (fuel : Nat) (src : String) : Option String :=
  match runProgram fuel src with
  | .ok s => some s.output
  | .error _ => none

/-- The halted flag after a completed run. -/
def runHalted (fuel : Nat) (src : String) : Option Bool :=
  match runProgram fuel src with
  | .ok s => some s.executionFinished
  | .error _ => none

/-- The stdout already produced when a run aborts with a thrown error
(`none` when the run completes or runs out of fuel). -/
def runErrOutput (fuel : Nat) (src : String) : Option String :=
  match runProgram fuel src with
  | .error (RunErr.thrown _ s) => some s.output
  | _ => none

/-- The message of the thrown error aborting a run. -/
def runErrMsg (fuel : Nat) (src : String) : Option String :=
  match runProgram fuel src with
  | .error (RunErr.thrown msg _) => some msg
  | _ => none

/-- The stderr log of a completed run. -/
def runStderr (fuel : Nat) (src : String) : Option (List String) :=
  match runProgram fuel src with
  | .ok s => some s.stderrLog
  | .error _ => none

/-- Whitespace or line terminator, as in the spec's look-ahead clause. -/
def isWsOrLineTerm (c : Char) : Bool :=
  c == ' ' || c == '\t' || c == '\n' || c == '\r'

/-- The line-number predicate as the SPEC states it (for comparison
with the code's `is_valid_line_number`): value at least `10` and a
multiple of `10`, AND at end-of-input or the lexer's raw next character
is whitespace or a line terminator. -/
def specLineNumberPredicate (num : Int) (atEoi : Bool) (nextRaw : Char) : Bool :=
  decide (10 ≤ num) && decide (Int.emod num 10 = 0) &&
    (atEoi || isWsOrLineTerm nextRaw)

/-- All upper/lower-case respellings of a word. -/
def caseVariants : List Char → List (List Char)
  | [] => [[]]
  | c :: cs =>
    (caseVariants cs).flatMap (fun r => [c.toLower :: r, c.toUpper :: r])

/-- The six grammar keywords with their token kinds. -/
def grammarKeywords : List (String × TokenType) :=
  [("LET", TokenType.LET), ("IF", TokenType.IF), ("THEN", TokenType.THEN),
   ("PRINT", TokenType.PRINT), ("REM", TokenType.REM),
   ("GOTO", TokenType.GOTO)]

/-- One iteration of the scan shared by `find_target_line` and
`build_line_map`: the at-line-start flag becomes "previous token was an
end-of-line", and the tokenizer advances. -/
def scanStep (p : TokState × Bool) : TokState × Bool :=
  (next_token p.1, p.1.currentToken == TokenType.EOL)

/-- `k` iterations of `scanStep`. -/
def scanIter : Nat → TokState × Bool → TokState × Bool :=
  Nat.rec (motive := fun _ => TokState × Bool → TokState × Bool)
    (fun p => p)
    (fun _ ih p => ih (scanStep p))

/-- The match condition of `find_target_line`: at line start, a number
token whose value equals the target. -/
def targetGuard (lineNumber : Int) (p : TokState × Bool) : Bool :=
  p.2 && p.1.currentToken == TokenType.NUMBER && getNum p.1 == lineNumber

/-- Observable projection of a `factor` evaluation: the value and
whether the probed memory cell is still absent afterwards — used to
state the unwritten-indexed-read property decidably. -/
def factorMemProbe (fuel : Nat) (s : SState) (cell : Int) :
    Option (Int × Bool) :=
  match factor fuel s with
  | .ok (v, s') => some (v, (s'.mem cell).isNone)
  | .error _ => none

/-- The state `s'` has the same Variable Store, Indexed Memory and
stdout as `s`. -/
def preservesVMO (s s' : SState) : Prop :=
  s'.vars = s.vars ∧ s'.mem = s.mem ∧ s'.output = s.output

/-- The state `s'` has the same Variable Store and Indexed Memory as
`s`. -/
def preservesVM (s s' : SState) : Prop :=
  s'.vars = s.vars ∧ s'.mem = s.mem

/-- An evaluator result preserves the stores and stdout of the input
state, both on success and on a thrown error. -/
def evalResPreserves (s : SState) : Except RunErr (Int × SState) → Prop
  | .ok (_, s') => preservesVMO s s'
  | .error (RunErr.thrown _ s') => preservesVMO s s'
  | .error RunErr.fuelOut => True

/-- A statement result preserves the stores of the input state, both
on success and on a thrown error. -/
def stmtResPreserves (s : SState) : Except RunErr SState → Prop
  | .ok s' => preservesVM s s'
  | .error (RunErr.thrown _ s') => preservesVM s s'
  | .error RunErr.fuelOut => True

/-- A statement result preserves the stores and stdout of the input
state (used for `accept`, which never prints). -/
def stmtResPreservesO (s : SState) : Except RunErr SState → Prop
  | .ok s' => preservesVMO s s'
  | .error (RunErr.thrown _ s') => preservesVMO s s'
  | .error RunErr.fuelOut => True

/-!  Unfolding equations for the `Nat.rec`-defined loops.  -/

theorem evalAt_zero : evalAt 0 = evalBase := rfl

theorem evalAt_succ (fuel : Nat) : evalAt (fuel + 1) = evalStep (evalAt fuel) := rfl

theorem factor_succ (fuel : Nat) (s : SState) :
    factor (fuel + 1) s = (evalStep (evalAt fuel)).factor s := rfl

theorem term_succ (fuel : Nat) (s : SState) :
    term (fuel + 1) s = (evalStep (evalAt fuel)).term s := rfl

theorem termLoop_succ (fuel : Nat) (r : Int) (s : SState) :
    termLoop (fuel + 1) r s = (evalStep (evalAt fuel)).termLoop r s := rfl

theorem exprLoop_succ (fuel : Nat) (r : Int) (s : SState) :
    exprLoop (fuel + 1) r s = (evalStep (evalAt fuel)).exprLoop r s := rfl

theorem expression_succ (fuel : Nat) (s : SState) :
    expression (fuel + 1) s = (evalStep (evalAt fuel)).expression s := rfl

theorem relation_succ (fuel : Nat) (s : SState) :
    relation (fuel + 1) s = (evalStep (evalAt fuel)).relation s := rfl

theorem printLoop_zero (ns : Bool) (s : SState) :
    printLoop 0 ns s = .error RunErr.fuelOut := rfl

theorem printLoop_succ (fuel : Nat) (ns : Bool) (s : SState) :
    printLoop (fuel + 1) ns s =
      (if tokFinished s.tok then .ok s
       else
        let token := s.tok.currentToken
        if is_statement_end token || is_line_number s.tok then .ok s
        else
          match token with
          | TokenType.STRING =>
            printLoop fuel true { s with
              output := s.output ++ (if ns then " " else "") ++
                getString s.tok,
              tok := next_token s.tok }
          | TokenType.SEPARATOR =>
            printLoop fuel false { s with
              output := s.output ++ " ",
              tok := next_token s.tok }
          | TokenType.LETTER | TokenType.NUMBER | TokenType.LEFT_PAREN
          | TokenType.MINUS =>
            match expression fuel
                { s with output := s.output ++ (if ns then " " else "") } with
            | .error e => .error e
            | .ok (v, s2) =>
              printLoop fuel true { s2 with output := s2.output ++ toString v }
          | _ => .ok s) := rfl

theorem find_target_line_zero (n : Int) (b : Bool) (t : TokState) :
    find_target_line 0 n b t = none := rfl

theorem find_target_line_succ (fuel : Nat) (n : Int) (b : Bool) (t : TokState) :
    find_target_line (fuel + 1) n b t =
      (if tokFinished t then some (false, t)
       else if b && t.currentToken == TokenType.NUMBER && getNum t == n then
        some (true, next_token t)
       else
        find_target_line fuel n (t.currentToken == TokenType.EOL)
          (next_token t)) := rfl

theorem lineScan_zero (m : Int → Option Bool) (b : Bool) (t : TokState) :
    lineScan 0 m b t = none := rfl

theorem lineScan_succ (fuel : Nat) (m : Int → Option Bool) (b : Bool)
    (t : TokState) :
    lineScan (fuel + 1) m b t =
      (if tokFinished t then some (m, t)
       else
        lineScan fuel
          (if b && t.currentToken == TokenType.NUMBER &&
              is_valid_line_number (getNum t) then
            updStore m (getNum t) (some true)
          else m)
          (t.currentToken == TokenType.EOL) (next_token t)) := rfl

theorem runLoop_succ (fuel : Nat) (s : SState) :
    runLoop (fuel + 1) s =
      (if s.executionFinished then .ok s
       else if tokFinished s.tok then .ok { s with executionFinished := true }
       else
        match line_statement fuel s with
        | .error e => .error e
        | .ok s1 => runLoop fuel s1) := rfl

theorem scanIter_zero (p : TokState × Bool) : scanIter 0 p = p := rfl

theorem scanIter_succ (k : Nat) (p : TokState × Bool) :
    scanIter (k + 1) p = scanIter k (scanStep p) := rfl

/-!  Store-preservation helpers (expression evaluation is read-only on
the Variable Store, the Indexed Memory and stdout).  -/

theorem preservesVMO_refl (s : SState) : preservesVMO s s := ⟨rfl, rfl, rfl⟩

theorem preservesVMO_trans {a b c : SState} (h1 : preservesVMO a b)
    (h2 : preservesVMO b c) : preservesVMO a c :=
  ⟨h2.1.trans h1.1, h2.2.1.trans h1.2.1, h2.2.2.trans h1.2.2⟩

theorem preservesVMO_tok (s : SState) (t : TokState) :
    preservesVMO s { s with tok := t } := ⟨rfl, rfl, rfl⟩

theorem accept_preservesO (tk : TokenType) (s : SState) :
    stmtResPreservesO s (accept tk s) := by
  unfold accept dprintfError
  split
  · exact ⟨rfl, rfl, rfl⟩
  · exact ⟨rfl, rfl, rfl⟩

theorem evalResPreserves_trans {s a : SState} (h : preservesVMO s a)
    {r : Except RunErr (Int × SState)} (h2 : evalResPreserves a r) :
    evalResPreserves s r := by
  cases r with
  | ok p =>
    cases p with
    | mk v s' => exact preservesVMO_trans h h2
  | error e =>
    cases e with
    | thrown m s' => exact preservesVMO_trans h h2
    | fuelOut => trivial

theorem safe_divide_preserves (a b : Int) (s : SState) :
    evalResPreserves s (safe_divide a b s) := by
  unfold safe_divide dprintfWarn dprintfError
  split
  · split
    · exact ⟨rfl, rfl, rfl⟩
    · exact ⟨rfl, rfl, rfl⟩
  · exact ⟨rfl, rfl, rfl⟩

theorem evalAt_preserves : ∀ fuel : Nat,
    (∀ s, evalResPreserves s ((evalAt fuel).factor s)) ∧
    (∀ r s, evalResPreserves s ((evalAt fuel).termLoop r s)) ∧
    (∀ s, evalResPreserves s ((evalAt fuel).term s)) ∧
    (∀ r s, evalResPreserves s ((evalAt fuel).exprLoop r s)) ∧
    (∀ s, evalResPreserves s ((evalAt fuel).expression s)) ∧
    (∀ s, evalResPreserves s ((evalAt fuel).relation s)) := by
  intro fuel
  induction fuel with
  | zero =>
    exact ⟨fun _ => trivial, fun _ _ => trivial, fun _ => trivial,
      fun _ _ => trivial, fun _ => trivial, fun _ => trivial⟩
  | succ fuel ih =>
    obtain ⟨ihF, ihTL, ihT, ihEL, ihE, ihR⟩ := ih
    rw [evalAt_succ]
    have hF : ∀ s, evalResPreserves s ((evalStep (evalAt fuel)).factor s) := by
      intro s
      dsimp only [evalStep]
      split
      · exact ⟨rfl, rfl, rfl⟩
      · split
        · split
          · split
            · rename_i e heq
              have h2 := ihE { s with tok := next_token (next_token s.tok) }
              rw [heq] at h2
              cases e with
              | thrown m s' =>
                exact preservesVMO_trans ⟨rfl, rfl, rfl⟩ h2
              | fuelOut => trivial
            · rename_i idx s3 heq
              have h2 := ihE { s with tok := next_token (next_token s.tok) }
              rw [heq] at h2
              split
              · rename_i e heqa
                have h3 := accept_preservesO TokenType.RIGHT_BRACKET s3
                rw [heqa] at h3
                cases e with
                | thrown m s' =>
                  exact preservesVMO_trans (preservesVMO_trans ⟨rfl, rfl, rfl⟩ h2) h3
                | fuelOut => trivial
              · rename_i s4 heqa
                have h3 := accept_preservesO TokenType.RIGHT_BRACKET s3
                rw [heqa] at h3
                exact preservesVMO_trans (preservesVMO_trans ⟨rfl, rfl, rfl⟩ h2) h3
          · exact ⟨rfl, rfl, rfl⟩
        · exact ⟨rfl, rfl, rfl⟩
      · split
        · rename_i e heq
          have h2 := ihE { s with tok := next_token s.tok }
          rw [heq] at h2
          cases e with
          | thrown m s' => exact preservesVMO_trans ⟨rfl, rfl, rfl⟩ h2
          | fuelOut => trivial
        · rename_i v s2 heq
          have h2 := ihE { s with tok := next_token s.tok }
          rw [heq] at h2
          split
          · rename_i e heqa
            have h3 := accept_preservesO TokenType.RIGHT_PAREN s2
            rw [heqa] at h3
            cases e with
            | thrown m s' =>
              exact preservesVMO_trans (preservesVMO_trans ⟨rfl, rfl, rfl⟩ h2) h3
            | fuelOut => trivial
          · rename_i s3 heqa
            have h3 := accept_preservesO TokenType.RIGHT_PAREN s2
            rw [heqa] at h3
            exact preservesVMO_trans (preservesVMO_trans ⟨rfl, rfl, rfl⟩ h2) h3
      · split
        · rename_i e heq
          have h2 := ihF { s with tok := next_token s.tok }
          rw [heq] at h2
          cases e with
          | thrown m s' => exact preservesVMO_trans ⟨rfl, rfl, rfl⟩ h2
          | fuelOut => trivial
        · rename_i v s2 heq
          have h2 := ihF { s with tok := next_token s.tok }
          rw [heq] at h2
          exact preservesVMO_trans ⟨rfl, rfl, rfl⟩ h2
      · exact ⟨rfl, rfl, rfl⟩
    have hTL : ∀ r s, evalResPreserves s ((evalStep (evalAt fuel)).termLoop r s) := by
      intro r s
      dsimp only [evalStep]
      split
      · split
        · rename_i e heq
          have h2 := ihF { s with tok := next_token s.tok }
          rw [heq] at h2
          cases e with
          | thrown m s' => exact preservesVMO_trans ⟨rfl, rfl, rfl⟩ h2
          | fuelOut => trivial
        · rename_i rhs s2 heq
          have h2 := ihF { s with tok := next_token s.tok }
          rw [heq] at h2
          have hA : preservesVMO s s2 := preservesVMO_trans ⟨rfl, rfl, rfl⟩ h2
          split
          · exact evalResPreserves_trans hA (ihTL (r * rhs) s2)
          · split
            · rename_i e heqd
              have h3 := safe_divide_preserves r rhs s2
              rw [heqd] at h3
              cases e with
              | thrown m s' => exact preservesVMO_trans hA h3
              | fuelOut => trivial
            · rename_i v s3 heqd
              have h3 := safe_divide_preserves r rhs s2
              rw [heqd] at h3
              exact evalResPreserves_trans (preservesVMO_trans hA h3)
                (ihTL v s3)
      · exact ⟨rfl, rfl, rfl⟩
    have hT : ∀ s, evalResPreserves s ((evalStep (evalAt fuel)).term s) := by
      intro s
      dsimp only [evalStep]
      split
      · rename_i e heq
        have h2 := ihF s
        rw [heq] at h2
        exact h2
      · rename_i v s1 heq
        have h2 := ihF s
        rw [heq] at h2
        exact evalResPreserves_trans h2 (ihTL v s1)
    have hEL : ∀ r s, evalResPreserves s ((evalStep (evalAt fuel)).exprLoop r s) := by
      intro r s
      dsimp only [evalStep]
      split
      · split
        · rename_i e heq
          have h2 := ihT { s with tok := next_token s.tok }
          rw [heq] at h2
          cases e with
          | thrown m s' => exact preservesVMO_trans ⟨rfl, rfl, rfl⟩ h2
          | fuelOut => trivial
        · rename_i rhs s2 heq
          have h2 := ihT { s with tok := next_token s.tok }
          rw [heq] at h2
          have hA : preservesVMO s s2 := preservesVMO_trans ⟨rfl, rfl, rfl⟩ h2
          split
          · exact evalResPreserves_trans hA (ihEL (r + rhs) s2)
          · exact evalResPreserves_trans hA (ihEL (r - rhs) s2)
      · exact ⟨rfl, rfl, rfl⟩
    have hE : ∀ s, evalResPreserves s ((evalStep (evalAt fuel)).expression s) := by
      intro s
      dsimp only [evalStep]
      split
      · rename_i e heq
        have h2 := ihT s
        rw [heq] at h2
        exact h2
      · rename_i v s1 heq
        have h2 := ihT s
        rw [heq] at h2
        split
        · exact h2
        · exact evalResPreserves_trans h2 (ihEL v s1)
    have hR : ∀ s, evalResPreserves s ((evalStep (evalAt fuel)).relation s) := by
      intro s
      dsimp only [evalStep]
      split
      · rename_i e heq
        have h2 := ihE s
        rw [heq] at h2
        exact h2
      · rename_i left s1 heq
        have h2 := ihE s
        rw [heq] at h2
        have hA : preservesVMO s s1 := h2
        have hCmp : ∀ op : Int → Int → Bool,
            evalResPreserves s
              (match (evalAt fuel).expression
                  { s1 with tok := next_token s1.tok } with
                | .error e => .error e
                | .ok (right, s2) =>
                  .ok (if op left right then 1 else 0, s2)) := by
          intro op
          split
          · rename_i e heqi
            have h3 := ihE { s1 with tok := next_token s1.tok }
            rw [heqi] at h3
            cases e with
            | thrown m s' =>
              exact preservesVMO_trans (preservesVMO_trans hA ⟨rfl, rfl, rfl⟩) h3
            | fuelOut => trivial
          · rename_i right s2 heqi
            have h3 := ihE { s1 with tok := next_token s1.tok }
            rw [heqi] at h3
            exact preservesVMO_trans (preservesVMO_trans hA ⟨rfl, rfl, rfl⟩) h3
        split
        · exact hCmp (fun a b => a == b)
        · exact hCmp (fun a b => decide (a < b))
        · exact hCmp (fun a b => decide (b < a))
        · exact hCmp (fun a b => decide (a ≤ b))
        · exact hCmp (fun a b => decide (b ≤ a))
        · exact hCmp (fun a b => a != b)
        · exact hA
    exact ⟨hF, hTL, hT, hEL, hE, hR⟩

theorem factor_preserves (fuel : Nat) (s : SState) :
    evalResPreserves s (factor fuel s) := (evalAt_preserves fuel).1 s

theorem termLoop_preserves (fuel : Nat) (r : Int) (s : SState) :
    evalResPreserves s (termLoop fuel r s) := (evalAt_preserves fuel).2.1 r s

theorem term_preserves (fuel : Nat) (s : SState) :
    evalResPreserves s (term fuel s) := (evalAt_preserves fuel).2.2.1 s

theorem exprLoop_preserves (fuel : Nat) (r : Int) (s : SState) :
    evalResPreserves s (exprLoop fuel r s) := (evalAt_preserves fuel).2.2.2.1 r s

theorem expression_preserves (fuel : Nat) (s : SState) :
    evalResPreserves s (expression fuel s) := (evalAt_preserves fuel).2.2.2.2.1 s

theorem relation_preserves (fuel : Nat) (s : SState) :
    evalResPreserves s (relation fuel s) := (evalAt_preserves fuel).2.2.2.2.2 s

theorem preservesVM_of_VMO {s s' : SState} (h : preservesVMO s s') :
    preservesVM s s' := ⟨h.1, h.2.1⟩

theorem preservesVM_trans {a b c : SState} (h1 : preservesVM a b)
    (h2 : preservesVM b c) : preservesVM a c :=
  ⟨h2.1.trans h1.1, h2.2.trans h1.2⟩

theorem stmtResPreserves_trans {s a : SState} (h : preservesVM s a)
    {r : Except RunErr SState} (h2 : stmtResPreserves a r) :
    stmtResPreserves s r := by
  cases r with
  | ok s' => exact preservesVM_trans h h2
  | error e =>
    cases e with
    | thrown m s' => exact preservesVM_trans h h2
    | fuelOut => trivial

theorem stmtRes_of_stmtResO {s : SState} {r : Except RunErr SState}
    (h : stmtResPreservesO s r) : stmtResPreserves s r := by
  cases r with
  | ok s' => exact preservesVM_of_VMO h
  | error e =>
    cases e with
    | thrown m s' => exact preservesVM_of_VMO h
    | fuelOut => trivial

theorem evalRes_to_stmt {s : SState} {r : Except RunErr (Int × SState)}
    (h : evalResPreserves s r) {v : Int} {s' : SState}
    (heq : r = .ok (v, s')) : preservesVM s s' := by
  rw [heq] at h
  exact preservesVM_of_VMO h

theorem accept_preserves (tk : TokenType) (s : SState) :
    stmtResPreserves s (accept tk s) :=
  stmtRes_of_stmtResO (accept_preservesO tk s)

theorem jumpToLine_preserves (fuel : Nat) (n : Int) (s : SState) :
    stmtResPreserves s (jumpToLine fuel n s) := by
  unfold jumpToLine dprintfError
  split
  · exact ⟨rfl, rfl⟩
  · dsimp only
    split
    · trivial
    · split
      · exact ⟨rfl, rfl⟩
      · exact ⟨rfl, rfl⟩

theorem goto_statement_preserves (fuel : Nat) (s : SState) :
    stmtResPreserves s (goto_statement fuel s) := by
  unfold goto_statement
  split
  · rename_i e heq
    have h1 := accept_preserves TokenType.GOTO s
    rw [heq] at h1
    exact h1
  · rename_i s1 heq
    have h1 := accept_preserves TokenType.GOTO s
    rw [heq] at h1
    split
    · rename_i e heqa
      have h2 := accept_preserves TokenType.NUMBER s1
      rw [heqa] at h2
      exact stmtResPreserves_trans h1 h2
    · rename_i s2 heqa
      have h2 := accept_preserves TokenType.NUMBER s1
      rw [heqa] at h2
      have hA : preservesVM s s2 := preservesVM_trans h1 h2
      have hB : preservesVM s
          (if s2.tok.currentToken == TokenType.EOL then
            { s2 with tok := next_token s2.tok } else s2) := by
        split
        · exact preservesVM_trans hA ⟨rfl, rfl⟩
        · exact hA
      exact stmtResPreserves_trans hB (jumpToLine_preserves fuel _ _)

theorem if_statement_preserves (fuel : Nat) (s : SState) :
    stmtResPreserves s (if_statement fuel s) := by
  unfold if_statement
  split
  · rename_i e heq
    have h1 := accept_preserves TokenType.IF s
    rw [heq] at h1
    exact h1
  · rename_i s1 heq
    have h1 := accept_preserves TokenType.IF s
    rw [heq] at h1
    split
    · rename_i e heqr
      have h2 := relation_preserves fuel s1
      rw [heqr] at h2
      cases e with
      | thrown m s' =>
        exact preservesVM_trans h1 (preservesVM_of_VMO h2)
      | fuelOut => trivial
    · rename_i cond s2 heqr
      have h2 := relation_preserves fuel s1
      rw [heqr] at h2
      have hA : preservesVM s s2 :=
        preservesVM_trans h1 (preservesVM_of_VMO h2)
      split
      · rename_i e heqt
        have h3 := accept_preserves TokenType.THEN s2
        rw [heqt] at h3
        exact stmtResPreserves_trans hA h3
      · rename_i s3 heqt
        have h3 := accept_preserves TokenType.THEN s2
        rw [heqt] at h3
        have hB : preservesVM s s3 := preservesVM_trans hA h3
        split
        · unfold dprintfError
          exact hB
        · dsimp only
          split
          · exact stmtResPreserves_trans
              (preservesVM_trans hB ⟨rfl, rfl⟩)
              (jumpToLine_preserves fuel _ _)
          · split
            · exact preservesVM_trans hB ⟨rfl, rfl⟩
            · exact preservesVM_trans hB ⟨rfl, rfl⟩

theorem printLoop_preserves (fuel : Nat) :
    ∀ (ns : Bool) (s : SState), stmtResPreserves s (printLoop fuel ns s) := by
  induction fuel with
  | zero => intro ns s; trivial
  | succ fuel ih =>
    intro ns s
    have hexprCase : ∀ u : SState, preservesVM s u →
        stmtResPreserves s
          (match expression fuel u with
            | .error e => .error e
            | .ok (v, s2) =>
              printLoop fuel true { s2 with output := s2.output ++ toString v }) := by
      intro u hu
      split
      · rename_i e heq
        have h2 := expression_preserves fuel u
        rw [heq] at h2
        cases e with
        | thrown m s' =>
          exact preservesVM_trans hu (preservesVM_of_VMO h2)
        | fuelOut => trivial
      · rename_i v s2 heq
        have h2 := expression_preserves fuel u
        rw [heq] at h2
        exact stmtResPreserves_trans
          (preservesVM_trans hu
            (preservesVM_trans (preservesVM_of_VMO h2) ⟨rfl, rfl⟩))
          (ih true _)
    rw [printLoop_succ]
    split
    · exact ⟨rfl, rfl⟩
    · dsimp only
      split
      · exact ⟨rfl, rfl⟩
      · split
        · exact stmtResPreserves_trans ⟨rfl, rfl⟩ (ih true _)
        · exact stmtResPreserves_trans ⟨rfl, rfl⟩ (ih false _)
        · exact hexprCase _ ⟨rfl, rfl⟩
        · exact hexprCase _ ⟨rfl, rfl⟩
        · exact hexprCase _ ⟨rfl, rfl⟩
        · exact hexprCase _ ⟨rfl, rfl⟩
        · exact ⟨rfl, rfl⟩

theorem print_statement_preserves (fuel : Nat) (s : SState) :
    stmtResPreserves s (print_statement fuel s) := by
  unfold print_statement
  split
  · rename_i e heq
    have h1 := accept_preserves TokenType.PRINT s
    rw [heq] at h1
    exact h1
  · rename_i s1 heq
    have h1 := accept_preserves TokenType.PRINT s
    rw [heq] at h1
    split
    · rename_i e heqp
      have h2 := printLoop_preserves fuel false s1
      rw [heqp] at h2
      cases e with
      | thrown m s' => exact preservesVM_trans h1 h2
      | fuelOut => trivial
    · rename_i s2 heqp
      have h2 := printLoop_preserves fuel false s1
      rw [heqp] at h2
      have hA : preservesVM s s2 := preservesVM_trans h1 h2
      dsimp only
      split
      · exact preservesVM_trans hA ⟨rfl, rfl⟩
      · split
        · exact preservesVM_trans hA ⟨rfl, rfl⟩
        · split
          · exact preservesVM_trans hA ⟨rfl, rfl⟩
          · exact preservesVM_trans hA ⟨rfl, rfl⟩

theorem printLoop_output_extends (fuel : Nat) :
    ∀ (ns : Bool) (s s' : SState), printLoop fuel ns s = .ok s' →
      ∃ mid, s'.output = s.output ++ mid := by
  induction fuel with
  | zero =>
    intro ns s s' h
    rw [printLoop_zero] at h
    simp at h
  | succ fuel ih =>
    have hexprCase : ∀ (u s' : SState),
        (match expression fuel u with
          | Except.error e => Except.error e
          | Except.ok (v, s2) =>
            printLoop fuel true
              { s2 with output := s2.output ++ toString v }) = Except.ok s' →
        ∃ mid, s'.output = u.output ++ mid := by
      intro u s' h
      split at h
      · simp at h
      · rename_i v s2 heq
        have hp := expression_preserves fuel u
        rw [heq] at hp
        obtain ⟨mid, hmid⟩ := ih true _ s' h
        refine ⟨toString v ++ mid, ?_⟩
        rw [hmid]
        dsimp only
        rw [hp.2.2]
        simp [String.append_assoc]
    intro ns s s' h
    rw [printLoop_succ] at h
    split at h
    · cases h
      exact ⟨"", (String.append_empty _).symm⟩
    · dsimp only at h
      split at h
      · cases h
        exact ⟨"", (String.append_empty _).symm⟩
      · split at h
        · obtain ⟨mid, hmid⟩ := ih true _ s' h
          refine ⟨(if ns = true then " " else "") ++ getString s.tok ++ mid, ?_⟩
          rw [hmid]
          dsimp only
          simp [String.append_assoc]
        · obtain ⟨mid, hmid⟩ := ih false _ s' h
          refine ⟨" " ++ mid, ?_⟩
          rw [hmid]
          dsimp only
          simp [String.append_assoc]
        · obtain ⟨mid, hmid⟩ := hexprCase _ s' h
          refine ⟨(if ns = true then " " else "") ++ mid, ?_⟩
          rw [hmid]
          dsimp only
          simp [String.append_assoc]
        · obtain ⟨mid, hmid⟩ := hexprCase _ s' h
          refine ⟨(if ns = true then " " else "") ++ mid, ?_⟩
          rw [hmid]
          dsimp only
          simp [String.append_assoc]
        · obtain ⟨mid, hmid⟩ := hexprCase _ s' h
          refine ⟨(if ns = true then " " else "") ++ mid, ?_⟩
          rw [hmid]
          dsimp only
          simp [String.append_assoc]
        · obtain ⟨mid, hmid⟩ := hexprCase _ s' h
          refine ⟨(if ns = true then " " else "") ++ mid, ?_⟩
          rw [hmid]
          dsimp only
          simp [String.append_assoc]
        · cases h
          exact ⟨"", (String.append_empty _).symm⟩

/-!  Lexer lemmas for the numeric-literal limit.  -/

theorem skipWsF_succ (content : List Char) (f pos : Nat) :
    skipWsF content (f + 1) pos =
      if !atEnd content pos && isSpaceTab (curC content pos) then
        skipWsF content f (pos + 1)
      else pos := rfl

theorem numScanF_zero (content : List Char) (pos : Nat) (acc : List Char) :
    numScanF content 0 pos acc = .ok (acc, pos) := rfl

theorem numScanF_succ (content : List Char) (f pos : Nat) (acc : List Char) :
    numScanF content (f + 1) pos acc =
      if !atEnd content pos && (curC content pos).isDigit then
        if SUBARUU_NUMBER_LITERAL ≤ acc.length then .error pos
        else numScanF content f (pos + 1) (acc ++ [curC content pos])
      else .ok (acc, pos) := rfl

theorem digit_char_ne {c d : Char} (h : c.isDigit = true)
    (hd : d.isDigit = false) : (c == d) = false := by
  cases hc : c == d with
  | false => rfl
  | true =>
    rw [eq_of_beq hc] at h
    rw [h] at hd
    exact absurd hd (by simp)

theorem isSpaceTab_of_isDigit {c : Char} (h : c.isDigit = true) :
    isSpaceTab c = false := by
  unfold isSpaceTab
  rw [digit_char_ne h (by decide), digit_char_ne h (by decide)]
  rfl

theorem atEnd_false_of_lt {content : List Char} {pos : Nat}
    (h : pos < content.length) : atEnd content pos = false := by
  simp [atEnd]
  omega

theorem curC_eq_get {content : List Char} {pos : Nat}
    (h : pos < content.length) : curC content pos = content.get ⟨pos, h⟩ := by
  simp [curC, List.get?_eq_get h, List.getElem?_eq_getElem h]

theorem curC_at_end {content : List Char} {pos : Nat}
    (h : content.length ≤ pos) : curC content pos = Char.ofNat 0 := by
  simp [curC, List.getElem?_eq_none h]

theorem skipWs_no_ws {content : List Char} {pos : Nat}
    (h : isSpaceTab (curC content pos) = false) : skipWs content pos = pos := by
  unfold skipWs
  rw [skipWsF_succ, h]
  simp

theorem skipWs_at_end {content : List Char} {pos : Nat}
    (h : content.length ≤ pos) : skipWs content pos = pos :=
  skipWs_no_ws (by rw [curC_at_end h]; rfl)

theorem numScanF_digits_ok (ds : List Char)
    (hds : ∀ c ∈ ds, c.isDigit = true) :
    ∀ (f pos : Nat) (acc : List Char), pos ≤ ds.length →
      ds.length - pos ≤ f →
      acc.length + (ds.length - pos) ≤ SUBARUU_NUMBER_LITERAL →
      numScanF ds f pos acc = .ok (acc ++ ds.drop pos, ds.length) := by
  intro f
  induction f with
  | zero =>
    intro pos acc hle hf hcap
    have hpos : pos = ds.length := by omega
    subst hpos
    rw [numScanF_zero, List.drop_length, List.append_nil]
  | succ f ih =>
    intro pos acc hle hf hcap
    rw [numScanF_succ]
    by_cases hp : pos < ds.length
    · have hA : atEnd ds pos = false := atEnd_false_of_lt hp
      have hdig : (curC ds pos).isDigit = true := by
        rw [curC_eq_get hp]
        exact hds _ (List.get_mem ds pos hp)
      rw [hA, hdig]
      have hcapf : ¬(SUBARUU_NUMBER_LITERAL ≤ acc.length) := by
        simp only [SUBARUU_NUMBER_LITERAL] at *
        omega
      simp only [Bool.not_false, Bool.true_and, if_true, if_neg hcapf]
      rw [ih (pos + 1) (acc ++ [curC ds pos]) (by omega) (by omega)
        (by simp only [List.length_append, List.length_cons,
              List.length_nil]; omega)]
      have hdrop : ds.drop pos = curC ds pos :: ds.drop (pos + 1) := by
        rw [curC_eq_get hp, List.drop_eq_getElem_cons hp]
        simp
      rw [hdrop, List.append_assoc, List.singleton_append]
    · have hpos : pos = ds.length := by omega
      subst hpos
      have hA : atEnd ds ds.length = true := by simp [atEnd]
      rw [hA]
      simp [List.drop_length]

theorem numScanF_digits_err (ds : List Char)
    (hds : ∀ c ∈ ds, c.isDigit = true) :
    ∀ (f pos : Nat) (acc : List Char), pos ≤ ds.length →
      ds.length - pos ≤ f → acc.length ≤ SUBARUU_NUMBER_LITERAL →
      SUBARUU_NUMBER_LITERAL < acc.length + (ds.length - pos) →
      ∃ p, numScanF ds f pos acc = .error p := by
  intro f
  induction f with
  | zero =>
    intro pos acc h1 h2 h3 h4
    exfalso
    omega
  | succ f ih =>
    intro pos acc h1 h2 h3 h4
    have hp : pos < ds.length := by
      rcases Nat.lt_or_ge pos ds.length with h | h
      · exact h
      · exfalso; omega
    rw [numScanF_succ]
    have hA : atEnd ds pos = false := atEnd_false_of_lt hp
    have hdig : (curC ds pos).isDigit = true := by
      rw [curC_eq_get hp]
      exact hds _ (List.get_mem ds pos hp)
    rw [hA, hdig]
    simp only [Bool.not_false, Bool.true_and, if_true]
    by_cases hcap : SUBARUU_NUMBER_LITERAL ≤ acc.length
    · rw [if_pos hcap]
      exact ⟨pos, rfl⟩
    · rw [if_neg hcap]
      exact ih (pos + 1) (acc ++ [curC ds pos]) (by omega) (by omega)
        (by simp only [List.length_append, List.length_cons,
              List.length_nil]; omega)
        (by simp only [List.length_append, List.length_cons,
              List.length_nil]; omega)

theorem digitsVal_aux (ds : List Char) : ∀ a : Int,
    ds.foldl (fun x c => x * 10 + Int.ofNat (c.toNat - '0'.toNat)) a =
      a * 10 ^ ds.length +
        Int.ofNat (Nat.ofDigits 10
          ((ds.map fun c => c.toNat - '0'.toNat)).reverse) := by
  induction ds with
  | nil =>
    intro a
    simp [Nat.ofDigits_nil]
  | cons c cs ih =>
    intro a
    simp only [List.foldl_cons, List.map_cons, List.reverse_cons,
      List.length_cons]
    rw [ih]
    rw [Nat.ofDigits_append]
    simp only [Nat.ofDigits_singleton, List.length_reverse,
      List.length_map, Int.ofNat_eq_coe]
    push_cast
    ring

theorem digitsVal_eq_ofDigits (ds : List Char) :
    digitsVal ds =
      Int.ofNat (Nat.ofDigits 10
        ((ds.map fun c => c.toNat - '0'.toNat)).reverse) := by
  unfold digitsVal
  rw [digitsVal_aux]
  simp

theorem gntCore_digit (content : List Char) (d : TokenData)
    (h0 : 0 < content.length) (hd : (curC content 0).isDigit = true) :
    gntCore content 0 d = token_number content 0 d := by
  unfold gntCore
  rw [atEnd_false_of_lt h0, skipWs_no_ws (isSpaceTab_of_isDigit hd)]
  simp only [Bool.false_eq_true, if_false]
  rw [digit_char_ne hd (by decide), digit_char_ne hd (by decide),
    digit_char_ne hd (by decide)]
  simp [hd]

theorem token_number_digits (ds : List Char) (hne : ds ≠ [])
    (hds : ∀ c ∈ ds, c.isDigit = true) (d : TokenData) :
    (ds.length ≤ SUBARUU_NUMBER_LITERAL →
      token_number ds 0 d =
        ⟨ds, ds.length, TokenType.NUMBER, TokenData.num (digitsVal ds)⟩) ∧
    (SUBARUU_NUMBER_LITERAL < ds.length →
      (token_number ds 0 d).currentToken = TokenType.ERROR) := by
  have h0 : 0 < ds.length := List.length_pos.mpr hne
  have hd0 : (curC ds 0).isDigit = true := by
    rw [curC_eq_get h0]
    exact hds _ (List.get_mem ds 0 h0)
  constructor
  · intro hlen
    unfold token_number
    rw [skipWs_no_ws (isSpaceTab_of_isDigit hd0)]
    dsimp only
    rw [numScanF_digits_ok ds hds (ds.length + 1) 0 [] (by omega) (by omega)
      (by simpa using hlen)]
    simp only [List.nil_append, List.drop_zero]
    have hemp : ds.isEmpty = false := by
      simp [List.isEmpty_iff]
      exact hne
    rw [hemp]
    simp only [Bool.false_eq_true, if_false]
    rw [skipWs_at_end (le_refl _)]
  · intro hlen
    unfold token_number
    rw [skipWs_no_ws (isSpaceTab_of_isDigit hd0)]
    dsimp only
    obtain ⟨p, hp⟩ := numScanF_digits_err ds hds (ds.length + 1) 0 []
      (by omega) (by omega) (by simp [SUBARUU_NUMBER_LITERAL])
      (by simpa using hlen)
    rw [hp]

/-!  Claim theorems.  -/

/-- C7: running the interpreter on `10 PRINT "Hello, World!"` prints
exactly `Hello, World!` followed by one newline, and the interpreter is
halted after that single statement. -/
theorem hello_world_run :
    runOutput 100 "10 PRINT \"Hello, World!\"" = some "Hello, World!\n" ∧
    runHalted 100 "10 PRINT \"Hello, World!\"" = some true :=
  ⟨rfl, rfl⟩

/-- C5: under the default configuration, dividing by zero logs a
non-fatal warning and yields `0` for every numerator, and the program
`PRINT 5/0` prints `0` and a newline, completes, and logs exactly the
warning. -/
theorem divide_by_zero_default_policy :
    (∀ (n : Int) (s : SState),
      safe_divide n 0 s = .ok (0, dprintfWarn "*warning: divide by zero" s)) ∧
    runOutput 200 "PRINT 5/0" = some "0\n" ∧
    runStderr 200 "PRINT 5/0" = some ["WARNING: *warning: divide by zero"] :=
  ⟨fun _ _ => rfl, rfl, rfl⟩

/-- C6: a jump (from `GOTO` or a true `IF ... THEN`) whose target line
number is absent from the Line Index throws a fatal runtime error whose
carried state has the stdout of the jump point — no further output is
produced — and the two demonstration programs abort with that error and
empty output, never reaching their `PRINT`. -/
theorem undefined_jump_target_fatal :
    (∀ (fuel : Nat) (n : Int) (s : SState), s.lineMap n = none →
      jumpToLine fuel n s =
        .error (RunErr.thrown
          ("Runtime Error: Line number " ++ toString n ++ " not found")
          { s with stderrLog := s.stderrLog ++
              ["ERROR: " ++ ("Runtime Error: Line number " ++ toString n ++
                " not found")] })) ∧
    runErrMsg 300 "10 GOTO 50\n20 PRINT 1" =
      some "Runtime Error: Line number 50 not found" ∧
    runErrOutput 300 "10 GOTO 50\n20 PRINT 1" = some "" ∧
    runErrMsg 300 "10 IF 1 = 1 THEN 50\n20 PRINT 1" =
      some "Runtime Error: Line number 50 not found" ∧
    runErrOutput 300 "10 IF 1 = 1 THEN 50\n20 PRINT 1" = some "" := by
  refine ⟨fun fuel n s h => ?_, rfl, rfl, rfl, rfl⟩
  unfold jumpToLine
  rw [if_pos h]
  rfl

/-- Witness for C6: the jump check applied at a concrete state with an
empty line map. -/
theorem undefined_jump_target_fatal_witness :
    jumpToLine 5 50 (initState "x") =
      .error (RunErr.thrown
        ("Runtime Error: Line number " ++ toString (50 : Int) ++ " not found")
        { initState "x" with stderrLog := (initState "x").stderrLog ++
            ["ERROR: " ++ ("Runtime Error: Line number " ++
              toString (50 : Int) ++ " not found")] }) :=
  undefined_jump_target_fatal.1 5 50 (initState "x") rfl

/-- C9: lexing from the start after `reset()` yields a token stream
(kinds and payloads) identical to lexing the same source from a fresh
tokenizer, whatever state the tokenizer had reached. -/
theorem reset_relex_idempotent :
    ∀ (t : TokState) (src : String) (fuel : Nat), t.content = src.toList →
      tokenStream fuel (tokenizerReset t) = tokenStream fuel (tokenizerInit src) := by
  intro t src fuel h
  have hre : tokenizerReset t = tokenizerInit src := by
    unfold tokenizerReset tokenizerInit
    rw [h]
  rw [hre]

/-- Witness for C9: reset from a mid-stream tokenizer state over
`10 PRINT x` reproduces the fresh token stream. -/
theorem reset_relex_idempotent_witness :
    tokenStream 20 (tokenizerReset
        ⟨"10 PRINT x".toList, 7, TokenType.EQUAL, TokenData.ch 'q'⟩) =
      tokenStream 20 (tokenizerInit "10 PRINT x") :=
  reset_relex_idempotent
    ⟨"10 PRINT x".toList, 7, TokenType.EQUAL, TokenData.ch 'q'⟩
    "10 PRINT x" 20 rfl

/-- C4 counterexample: the all-lowercase spelling `print` is NOT
recognized as the `PRINT` keyword — the lexer returns a variable-letter
token (`p`), because only an uppercase first character dispatches to
the keyword scanner. -/
theorem lowercase_keyword_not_recognized :
    (tokenizerInit "print").currentToken = TokenType.LETTER ∧
    (tokenizerInit "print").currentToken ≠ TokenType.PRINT ∧
    (tokenizerInit "print").tokenData = TokenData.ch 'p' := by
  refine ⟨rfl, ?_, rfl⟩
  decide

/-- C4 (amended): for every keyword in {LET, IF, THEN, PRINT, REM,
GOTO} and every letter-case spelling of it, the lexer recognizes the
spelling as that keyword token exactly when the first character is
uppercase (the remaining letters are case-folded); spellings beginning
with a lowercase letter lex as a single-letter variable token. -/
theorem keyword_case_recognition :
    (grammarKeywords.all fun kw =>
      (caseVariants kw.1.toList).all fun w =>
        match w with
        | [] => true
        | c :: _ =>
          if c.isUpper then (tokenizerInit (String.mk w)).currentToken == kw.2
          else (tokenizerInit (String.mk w)).currentToken ==
            TokenType.LETTER) = true := by
  decide

/-- C3 counterexample: in `10 PRINT 1;2` the separator itself prints a
space — the output is `1 2\n`, not the `12\n` the claim's
"does not itself cause any character to be printed" would give. -/
theorem separator_prints_space_cex :
    runOutput 200 "10 PRINT 1;2" = some "1 2\n" ∧
    runOutput 200 "10 PRINT 1;2" ≠ some "12\n" := by
  refine ⟨rfl, ?_⟩
  decide

/-- C2 counterexample: with the same line number `20` labelling two
lines, `GOTO 20` transfers control to the FIRST such line (output
`1\n2\n`, not the `2\n` that last-writer-wins would produce); the Line
Index holds only the boolean `true` for `20`, not a position, and the
rescan stops at cursor position 20 — inside the first `20`-labelled
line, the second one starting at position 22. -/
theorem duplicate_line_number_first_wins_cex :
    runOutput 60 "10 GOTO 20\n20 PRINT 1\n20 PRINT 2" = some "1\n2\n" ∧
    runOutput 60 "10 GOTO 20\n20 PRINT 1\n20 PRINT 2" ≠ some "2\n" ∧
    (build_line_map 60 (initState "10 GOTO 20\n20 PRINT 1\n20 PRINT 2")).map
        (fun s => s.lineMap 20) = some (some true) ∧
    find_target_line 60 20 true
        (tokenizerReset (tokenizerInit "10 GOTO 20\n20 PRINT 1\n20 PRINT 2")) =
      some (true, ⟨"10 GOTO 20\n20 PRINT 1\n20 PRINT 2".toList, 20,
        TokenType.PRINT, TokenData.num 20⟩) := by
  refine ⟨rfl, ?_, rfl, ?_⟩
  · decide
  · rfl

/-- C2 (amended): the Line Index records only the presence of each
line number (its values are never anything but `true`), and a
successful `find_target_line` stops at the FIRST at-line-start
occurrence of the target number in the scan: there is a step index `k`
whose state satisfies the match guard, the result is the tokenizer
advanced past that label, and no earlier step satisfies the guard or is
at end of input. -/
theorem duplicate_line_number_first_wins :
    (∀ (fuel : Nat) (n : Int) (b : Bool) (t t' : TokState),
      find_target_line fuel n b t = some (true, t') →
      ∃ k, k < fuel ∧ targetGuard n (scanIter k (t, b)) = true ∧
        t' = next_token (scanIter k (t, b)).1 ∧
        ∀ j, j < k → targetGuard n (scanIter j (t, b)) = false ∧
          tokFinished (scanIter j (t, b)).1 = false) ∧
    (∀ (fuel : Nat) (m : Int → Option Bool) (b : Bool) (t : TokState)
        (res : (Int → Option Bool) × TokState),
      lineScan fuel m b t = some res → (∀ x, m x ≠ some false) →
      ∀ x, res.1 x ≠ some false) := by
  constructor
  · intro fuel
    induction fuel with
    | zero =>
      intro n b t t' h
      rw [find_target_line_zero] at h
      simp at h
    | succ fuel ih =>
      intro n b t t' h
      rw [find_target_line_succ] at h
      split at h
      · simp at h
      · split at h
        · rename_i hfin hg
          simp only [Option.some.injEq, Prod.mk.injEq, true_and] at h
          refine ⟨0, Nat.succ_pos fuel, ?_, h.symm, ?_⟩
          · rw [scanIter_zero]
            exact hg
          · intro j hj
            exact absurd hj (Nat.not_lt_zero j)
        · rename_i hfin hg
          obtain ⟨k, hk, hguard, ht', hprev⟩ :=
            ih n (t.currentToken == TokenType.EOL) (next_token t) t' h
          refine ⟨k + 1, by omega, ?_, ?_, ?_⟩
          · rw [scanIter_succ]
            exact hguard
          · rw [scanIter_succ]
            exact ht'
          · intro j hj
            cases j with
            | zero =>
              rw [scanIter_zero]
              constructor
              · simpa [targetGuard] using hg
              · simpa using hfin
            | succ j' =>
              rw [scanIter_succ]
              exact hprev j' (by omega)
  · intro fuel
    induction fuel with
    | zero =>
      intro m b t res h
      rw [lineScan_zero] at h
      simp at h
    | succ fuel ih =>
      intro m b t res h hm x
      rw [lineScan_succ] at h
      split at h
      · cases h
        exact hm x
      · refine ih _ _ _ res h ?_ x
        intro y
        split
        · unfold updStore
          split
          · simp
          · exact hm y
        · exact hm y

/-- Witness for C2 (amended): the rescan of the duplicate-label
program stops at the first `20`-labelled line, and a concrete line scan
records only `true`. -/
theorem duplicate_line_number_first_wins_witness :
    (∃ k, k < 60 ∧
      targetGuard 20 (scanIter k
        (tokenizerReset (tokenizerInit "10 GOTO 20\n20 PRINT 1\n20 PRINT 2"),
          true)) = true ∧
      (⟨"10 GOTO 20\n20 PRINT 1\n20 PRINT 2".toList, 20, TokenType.PRINT,
        TokenData.num 20⟩ : TokState) =
        next_token (scanIter k
          (tokenizerReset (tokenizerInit "10 GOTO 20\n20 PRINT 1\n20 PRINT 2"),
            true)).1 ∧
      ∀ j, j < k →
        targetGuard 20 (scanIter j
          (tokenizerReset (tokenizerInit "10 GOTO 20\n20 PRINT 1\n20 PRINT 2"),
            true)) = false ∧
        tokFinished (scanIter j
          (tokenizerReset (tokenizerInit "10 GOTO 20\n20 PRINT 1\n20 PRINT 2"),
            true)).1 = false) ∧
    ((fun _ => (some true : Option Bool)), tokenizerInit "").1 0 ≠ some false :=
  ⟨duplicate_line_number_first_wins.1 60 20 true
      (tokenizerReset (tokenizerInit "10 GOTO 20\n20 PRINT 1\n20 PRINT 2"))
      ⟨"10 GOTO 20\n20 PRINT 1\n20 PRINT 2".toList, 20, TokenType.PRINT,
        TokenData.num 20⟩ rfl,
   duplicate_line_number_first_wins.2 1 (fun _ => some true) false
     (tokenizerInit "") ((fun _ => some true), tokenizerInit "") rfl
     (fun _ => by simp) 0⟩

/-- C8: a numeric literal of more than `SUBARUU_NUMBER_LITERAL` (19)
digits lexes as a lexical-error token, not a silent truncation, while a
literal of at most 19 digits lexes as a NUMBER token carrying its exact
decimal value. -/
theorem numeric_literal_limit (ds : List Char) (hne : ds ≠ [])
    (hds : ∀ c ∈ ds, c.isDigit = true) :
    (ds.length ≤ SUBARUU_NUMBER_LITERAL →
      (tokenizerInit (String.mk ds)).currentToken = TokenType.NUMBER ∧
      getNum (tokenizerInit (String.mk ds)) =
        Int.ofNat (Nat.ofDigits 10
          ((ds.map fun c => c.toNat - '0'.toNat)).reverse)) ∧
    (SUBARUU_NUMBER_LITERAL < ds.length →
      (tokenizerInit (String.mk ds)).currentToken = TokenType.ERROR) := by
  have h0 : 0 < ds.length := List.length_pos.mpr hne
  have hd0 : (curC ds 0).isDigit = true := by
    rw [curC_eq_get h0]
    exact hds _ (List.get_mem ds 0 h0)
  have hinit : tokenizerInit (String.mk ds) = token_number ds 0 TokenData.none := by
    unfold tokenizerInit
    exact gntCore_digit ds TokenData.none h0 hd0
  rw [hinit]
  constructor
  · intro hlen
    rw [(token_number_digits ds hne hds TokenData.none).1 hlen]
    exact ⟨rfl, digitsVal_eq_ofDigits ds⟩
  · intro hlen
    exact (token_number_digits ds hne hds TokenData.none).2 hlen

/-- Witness for C8: the 2-digit literal `42` lexes as NUMBER 42, a
20-digit literal lexes as a lexical error. -/
theorem numeric_literal_limit_witness :
    ((tokenizerInit (String.mk ['4', '2'])).currentToken =
        TokenType.NUMBER ∧
      getNum (tokenizerInit (String.mk ['4', '2'])) =
        Int.ofNat (Nat.ofDigits 10
          ((['4', '2'].map fun c => c.toNat - '0'.toNat)).reverse)) ∧
    (tokenizerInit (String.mk
        ['1', '2', '3', '4', '5', '6', '7', '8', '9', '0',
         '1', '2', '3', '4', '5', '6', '7', '8', '9', '0'])).currentToken =
      TokenType.ERROR :=
  ⟨(numeric_literal_limit ['4', '2'] (by decide) (by decide)).1 (by decide),
   (numeric_literal_limit
      ['1', '2', '3', '4', '5', '6', '7', '8', '9', '0',
       '1', '2', '3', '4', '5', '6', '7', '8', '9', '0']
      (by decide) (by decide)).2 (by decide)⟩

/-- C1 counterexample: the integer token `20` in `20*` has raw next
character `*` (not whitespace, not a line terminator, not end of
input), so the spec's predicate rejects it; yet the code treats it as a
line number at all three sites — `is_line_number`, the Evaluator's
early-stop guard, and the Line Index builder, which records it. -/
theorem line_number_lookahead_cex :
    (tokenizerInit "20*").currentToken = TokenType.NUMBER ∧
    getNum (tokenizerInit "20*") = 20 ∧
    atEnd (tokenizerInit "20*").content (tokenizerInit "20*").pos = false ∧
    curC (tokenizerInit "20*").content (tokenizerInit "20*").pos = '*' ∧
    specLineNumberPredicate 20 false '*' = false ∧
    is_line_number (tokenizerInit "20*") = true ∧
    exprStopGuard (tokenizerInit "20*") = true ∧
    (build_line_map 100 (initState "20*")).map
      (fun s => (s.lineMap 20).isSome) = some true :=
  ⟨rfl, rfl, rfl, rfl, rfl, rfl, rfl, rfl⟩

/-- C1 (amended): an integer token is treated as a line number iff its
value is at least `10` and a multiple of `10` — with NO look-ahead at
the next raw character — and this value-only predicate
`is_valid_line_number` is the one applied at all three sites
(`is_line_number`, the Evaluator's early-stop guard, and the Line Index
builder's check). -/
theorem line_number_predicate_shared_sites :
    ∀ (t : TokState) (n : Int), t.currentToken = TokenType.NUMBER →
      t.tokenData = TokenData.num n →
      (is_line_number t = is_valid_line_number n ∧
       exprStopGuard t = is_valid_line_number n ∧
       (∀ b : Bool,
         (b && t.currentToken == TokenType.NUMBER &&
           is_valid_line_number (getNum t)) = (b && is_valid_line_number n)) ∧
       is_valid_line_number n =
         (decide (10 ≤ n) && decide (Int.emod n 10 = 0))) := by
  intro t n h1 h2
  refine ⟨?_, ?_, ?_, rfl⟩
  · simp [is_line_number, getNum, h1, h2]
  · simp [exprStopGuard, getNum, h1, h2]
  · intro b
    simp [getNum, h1, h2]

/-- C3 (amended): during a PRINT statement, every `,`/`;` separator
token resets the needs-a-leading-space flag AND itself prints exactly
one space character; the printed line is terminated by exactly one
newline appended after the item list's output. -/
theorem print_separator_and_newline :
    (∀ (fuel : Nat) (ns : Bool) (s : SState),
      s.tok.currentToken = TokenType.SEPARATOR →
      printLoop (fuel + 1) ns s =
        printLoop fuel false
          { s with output := s.output ++ " ", tok := next_token s.tok }) ∧
    (∀ (fuel : Nat) (s s' : SState), print_statement fuel s = .ok s' →
      ∃ body, s'.output = s.output ++ body ++ "\n") := by
  constructor
  · intro fuel ns s h
    rw [printLoop_succ]
    simp [h, tokFinished, is_statement_end, is_line_number]
  · intro fuel s s' h
    unfold print_statement at h
    split at h
    · simp at h
    · rename_i s1 heq
      have haco := accept_preservesO TokenType.PRINT s
      rw [heq] at haco
      split at h
      · simp at h
      · rename_i s2 heqp
        obtain ⟨mid, hmid⟩ := printLoop_output_extends fuel false s1 s2 heqp
        have hout2 : s2.output = s.output ++ mid := by
          rw [hmid, haco.2.2]
        dsimp only at h
        split at h
        · cases h
          exact ⟨mid, by rw [hout2]⟩
        · split at h
          · cases h
            exact ⟨mid, by rw [hout2]⟩
          · split at h
            · cases h
              exact ⟨mid, by rw [hout2]⟩
            · cases h
              exact ⟨mid, by rw [hout2]⟩

/-- Witness for C3 (amended): the separator step at a concrete
separator state, and the single-newline property at the concrete run of
`PRINT 1`. -/
theorem print_separator_and_newline_witness :
    printLoop 3 true (initState ";") =
      printLoop 2 false
        { initState ";" with
          output := (initState ";").output ++ " ",
          tok := next_token (initState ";").tok } ∧
    (∃ body,
      (SState.mk ⟨"PRINT 1".toList, 7, TokenType.EOF_TOKEN, TokenData.num 1⟩
          (fun _ => 0) (fun _ => none) (fun _ => none) true "1\n" []).output =
        (initState "PRINT 1").output ++ body ++ "\n") :=
  ⟨print_separator_and_newline.1 2 true (initState ";") rfl,
   print_separator_and_newline.2 20 (initState "PRINT 1")
     (SState.mk ⟨"PRINT 1".toList, 7, TokenType.EOF_TOKEN, TokenData.num 1⟩
       (fun _ => 0) (fun _ => none) (fun _ => none) true "1\n" []) rfl⟩

/-- C10: evaluating any expression (via factor, term, expression, or
relation) never modifies the Variable Store or the Indexed Memory;
PRINT, GOTO, IF and REM statements do not modify them either (only
LET/implicit assignment writes); and reading the never-written indexed
cell `m[5]` yields `0` while leaving the memory empty. -/
theorem expression_evaluation_frame :
    (∀ (fuel : Nat) (s : SState) (v : Int) (s' : SState),
      factor fuel s = .ok (v, s') → s'.vars = s.vars ∧ s'.mem = s.mem) ∧
    (∀ (fuel : Nat) (s : SState) (v : Int) (s' : SState),
      term fuel s = .ok (v, s') → s'.vars = s.vars ∧ s'.mem = s.mem) ∧
    (∀ (fuel : Nat) (s : SState) (v : Int) (s' : SState),
      expression fuel s = .ok (v, s') → s'.vars = s.vars ∧ s'.mem = s.mem) ∧
    (∀ (fuel : Nat) (s : SState) (v : Int) (s' : SState),
      relation fuel s = .ok (v, s') → s'.vars = s.vars ∧ s'.mem = s.mem) ∧
    (∀ (fuel : Nat) (s s' : SState),
      print_statement fuel s = .ok s' → s'.vars = s.vars ∧ s'.mem = s.mem) ∧
    (∀ (fuel : Nat) (s s' : SState),
      goto_statement fuel s = .ok s' → s'.vars = s.vars ∧ s'.mem = s.mem) ∧
    (∀ (fuel : Nat) (s s' : SState),
      if_statement fuel s = .ok s' → s'.vars = s.vars ∧ s'.mem = s.mem) ∧
    (∀ (fuel : Nat) (s s' : SState), s.tok.currentToken = TokenType.REM →
      statement fuel s = .ok s' → s'.vars = s.vars ∧ s'.mem = s.mem) ∧
    factorMemProbe 50 (initState "m[5]") 5 = some (0, true) := by
  refine ⟨?_, ?_, ?_, ?_, ?_, ?_, ?_, ?_, rfl⟩
  · intro fuel s v s' h
    exact evalRes_to_stmt (factor_preserves fuel s) h
  · intro fuel s v s' h
    exact evalRes_to_stmt (term_preserves fuel s) h
  · intro fuel s v s' h
    exact evalRes_to_stmt (expression_preserves fuel s) h
  · intro fuel s v s' h
    exact evalRes_to_stmt (relation_preserves fuel s) h
  · intro fuel s s' h
    have hp := print_statement_preserves fuel s
    rw [h] at hp
    exact hp
  · intro fuel s s' h
    have hp := goto_statement_preserves fuel s
    rw [h] at hp
    exact hp
  · intro fuel s s' h
    have hp := if_statement_preserves fuel s
    rw [h] at hp
    exact hp
  · intro fuel s s' hrem h
    unfold statement at h
    rw [hrem] at h
    cases h
    exact ⟨rfl, rfl⟩

/-- Witness for C10: the REM statement at a concrete state, leaving
both stores untouched. -/
theorem expression_evaluation_frame_witness :
    ({ initState "REM x" with
        tok := skip_to_eol (initState "REM x").tok }).vars =
      (initState "REM x").vars ∧
    ({ initState "REM x" with
        tok := skip_to_eol (initState "REM x").tok }).mem =
      (initState "REM x").mem :=
  expression_evaluation_frame.2.2.2.2.2.2.2.1 5 (initState "REM x")
    { initState "REM x" with tok := skip_to_eol (initState "REM x").tok }
    rfl rfl

/-- Witness for C1 (amended): the shared predicate instantiated at the
number token of `20*`. -/
theorem line_number_predicate_shared_sites_witness :
    is_line_number (tokenizerInit "20*") = is_valid_line_number 20 ∧
    exprStopGuard (tokenizerInit "20*") = is_valid_line_number 20 ∧
    (∀ b : Bool,
      (b && (tokenizerInit "20*").currentToken == TokenType.NUMBER &&
        is_valid_line_number (getNum (tokenizerInit "20*"))) =
        (b && is_valid_line_number 20)) ∧
    is_valid_line_number 20 =
      (decide ((10 : Int) ≤ 20) && decide (Int.emod 20 10 = 0)) :=
  line_number_predicate_shared_sites (tokenizerInit "20*") 20 rfl rfl

end Subaruu
